import Mathlib

set_option maxHeartbeats 1000000
set_option maxRecDepth 4000

/-!
Shallow embedding of the nasaC compliance system:
`src/tools/compliance_checker.py` (intrinsic rule engine, scoring) and
`src/tools/static_analysis_integration.py` (external tool adapters).

Python strings are modelled as `List Char`; the regular expressions of the
source are hand-compiled to deterministic character-level matchers (each
pattern used by the source is simple enough that greedy matching with the
usual leftmost-start search rule needs no backtracking, as argued at each
definition).  Character classes are modelled over their ASCII fragment.
Fallible Python operations (list subscription, iteration over arbitrary
JSON values) return `Except PyErr`.
-/

namespace NasaC

/-- The character list of a string literal; Python str values are modelled
as lists of characters. -/
def cs (s : String) : List Char := s.data

/-- ASCII whitespace: what the Python regex class `\s` and `str.strip`
accept (ASCII fragment). -/
def pySpace (c : Char) : Bool :=
  c == ' ' || c == '\t' || c == '\n' || c == '\r' || c == '\x0b' || c == '\x0c'

/-- ASCII word characters: the Python regex class `\w` (ASCII fragment). -/
def pyWordChar (c : Char) : Bool := c.isAlphanum || c == '_'

/-- `hasPfx l p`: Python `l.startswith(p)`. -/
def hasPfx : List Char → List Char → Bool
  | _, [] => true
  | [], _ :: _ => false
  | a :: as, b :: bs => a == b && hasPfx as bs

/-- `containsSub l n`: the Python containment test `n in l` on strings. -/
def containsSub (l n : List Char) : Bool :=
  match l with
  | [] => n.isEmpty
  | _ :: t => hasPfx l n || containsSub t n

/-- Python `str.strip()` (whitespace from both ends). -/
def stripChars (l : List Char) : List Char :=
  ((l.dropWhile pySpace).reverse.dropWhile pySpace).reverse

/-- Python `str.split(sep)` for a single-character separator; the result is
always non-empty. -/
def splitOnChar (sep : Char) : List Char → List (List Char)
  | [] => [[]]
  | c :: t =>
    if c == sep then [] :: splitOnChar sep t
    else
      match splitOnChar sep t with
      | [] => [[c]]
      | h :: r => (c :: h) :: r

/-- Python `'\n'.join(lines)`. -/
def joinNl : List (List Char) → List Char
  | [] => []
  | [l] => l
  | l :: ls => l ++ '\n' :: joinNl ls

/-- `line.strip().startswith('//')`, the comment test used by several rules. -/
def isCommentLine (l : List Char) : Bool := hasPfx (stripChars l) (cs "//")

/-- Consume an exact literal, returning the remainder. -/
def litAfter (l : List Char) (s : List Char) : Option (List Char) :=
  if hasPfx l s then some (l.drop s.length) else none

/-- Split a leading `\w+` run. -/
def wordRun (l : List Char) : List Char × List Char :=
  (l.takeWhile pyWordChar, l.dropWhile pyWordChar)

/-- `re.match(r'\s*while\s*\(', line)` as a Boolean.  The pattern is
deterministic: each `\s*` is followed by a non-space literal, so greedy
munching is exact. -/
def whileOpenMatch (l : List Char) : Bool :=
  match litAfter (l.dropWhile pySpace) (cs "while") with
  | none => false
  | some r =>
    match r.dropWhile pySpace with
    | '(' :: _ => true
    | _ => false

/-- The pattern `(\w+)\s*\(([^)]*)\)\s*\{` anchored at the head of `l`,
returning the two capture groups (function name, parameter text).  Greedy
runs are exact: after `\w+` only a space or `(` can continue the match,
after `[^)]*` only `)`, after each `\s*` a non-space literal. -/
def funcSig1At (l : List Char) : Option (List Char × List Char) :=
  let (name, r1) := wordRun l
  if name.isEmpty then none
  else
    match r1.dropWhile pySpace with
    | '(' :: r2 =>
      let ps := r2.takeWhile (fun c => c != ')')
      match r2.dropWhile (fun c => c != ')') with
      | ')' :: r3 =>
        (match r3.dropWhile pySpace with
         | c :: _ => if c == '\x7b' then some (name, ps) else none
         | [] => none)
      | _ => none
    | _ => none

/-- `re.search(r'(\w+)\s*\([^)]*\)\s*\{', line)`: try each start position
left to right (leftmost-match rule of `re.search`). -/
def searchFuncSig1 : List Char → Option (List Char × List Char)
  | [] => none
  | c :: t =>
    match funcSig1At (c :: t) with
    | some r => some r
    | none => searchFuncSig1 t

/-- The two-word pattern `\w+\s+\w+\s*\(([^)]*)\)` anchored at the head,
returning (parameter text, remainder after the closing parenthesis).
Shared core of the rule-4/6/7/style signatures. -/
def funcSig2At (l : List Char) : Option (List Char × List Char) :=
  let (w1, r1) := wordRun l
  if w1.isEmpty then none
  else if (r1.takeWhile pySpace).isEmpty then none
  else
    let (w2, r3) := wordRun (r1.dropWhile pySpace)
    if w2.isEmpty then none
    else
      match r3.dropWhile pySpace with
      | '(' :: r4 =>
        let ps := r4.takeWhile (fun c => c != ')')
        (match r4.dropWhile (fun c => c != ')') with
         | ')' :: r5 => some (ps, r5)
         | _ => none)
      | _ => none

/-- `re.match(r'\w+\s+\w+\s*\([^)]*\)\s*\{', line)` as a Boolean. -/
def funcDef2At (l : List Char) : Bool :=
  match funcSig2At l with
  | none => false
  | some (_, r) =>
    match r.dropWhile pySpace with
    | c :: _ => c == '\x7b'
    | [] => false

/-- `re.match(r'\w+\s+\w+\s*\([^)]*\)\s*\{?', line)` as a Boolean (the
trailing `\s*\{?` always succeeds). -/
def funcSig2OptAt (l : List Char) : Bool := (funcSig2At l).isSome

/-- `re.search(r'\w+\s+\w+\s*\(([^)]*)\)\s*\{?', line)`: parameter text of
the leftmost signature-like match (rule 4). -/
def searchFuncSig2 : List Char → Option (List Char)
  | [] => none
  | c :: t =>
    match funcSig2At (c :: t) with
    | some (ps, _) => some ps
    | none => searchFuncSig2 t

/-- `re.match(r'void\s+\w+\s*\([^)]*\)\s*\{?', line)` as a Boolean. -/
def voidSigAt (l : List Char) : Bool :=
  match litAfter l (cs "void") with
  | none => false
  | some r =>
    if (r.takeWhile pySpace).isEmpty then false
    else
      match wordRun (r.dropWhile pySpace) with
      | ([], _) => false
      | (_ :: _, r2) =>
        match r2.dropWhile pySpace with
        | '(' :: r3 =>
          (match r3.dropWhile (fun c => c != ')') with
           | ')' :: _ => true
           | _ => false)
        | _ => false

/-- The type keywords of the rule-6 declaration pattern, in the source's
alternation order (no keyword is a prefix of another, so at most one can
match at a given position). -/
def typeKeywords : List (List Char) :=
  [cs "int", cs "char", cs "float", cs "double", cs "long", cs "short",
   cs "unsigned", cs "signed"]

/-- After a matched keyword: `\s+\w+` (at least one space then at least one
word character). -/
def kwThenIdent (r : List Char) (kw : List Char) : Bool :=
  match litAfter r kw with
  | none => false
  | some r2 =>
    if (r2.takeWhile pySpace).isEmpty then false
    else
      match r2.dropWhile pySpace with
      | c :: _ => pyWordChar c
      | [] => false

/-- `re.match(r'\s*(int|char|float|double|long|short|unsigned|signed)\s+\w+', line)`
as a Boolean. -/
def declMatch (l : List Char) : Bool :=
  typeKeywords.any (kwThenIdent (l.dropWhile pySpace))

/-- The rule-9 pattern `(while|if)\s*\([^)]*=\s*[^)]*\)` anchored at the
head: equivalent to — keyword, optional spaces, `(`, and then an `=` occurs
before the first `)` of the remainder, and that `)` exists. -/
def rule9At (l : List Char) : Bool :=
  let kwRest :=
    match litAfter l (cs "while") with
    | some r => some r
    | none => litAfter l (cs "if")
  match kwRest with
  | none => false
  | some r =>
    match r.dropWhile pySpace with
    | '(' :: r2 =>
      (match r2.dropWhile (fun c => c != ')') with
       | ')' :: _ => (r2.takeWhile (fun c => c != ')')).contains '='
       | _ => false)
    | _ => false

/-- `re.search` for the rule-9 pattern. -/
def rule9Search : List Char → Bool
  | [] => false
  | c :: t => rule9At (c :: t) || rule9Search t

/-- The naming-rule keywords `(int|char|float|double)`. -/
def namingKeywords : List (List Char) :=
  [cs "int", cs "char", cs "float", cs "double"]

/-- After the keyword: `\s+([a-z]{1,2})\b`, returning the captured
variable name.  `{1,2}` is greedy: two letters are preferred, with the word
boundary checked after the attempt, and one letter can only succeed when
the following character is not a word character. -/
def namingTail (r : List Char) : Option (List Char) :=
  if (r.takeWhile pySpace).isEmpty then none
  else
    match r.dropWhile pySpace with
    | [] => none
    | c1 :: r3 =>
      if !c1.isLower then none
      else
        match r3 with
        | [] => some [c1]
        | c2 :: r4 =>
          if c2.isLower then
            match r4 with
            | [] => some [c1, c2]
            | c3 :: _ => if pyWordChar c3 then none else some [c1, c2]
          else if pyWordChar c2 then none else some [c1]

/-- The naming pattern `\b(int|char|float|double)\s+([a-z]{1,2})\b`
anchored at the head, assuming the head position is a word boundary. -/
def namingAt (l : List Char) : Option (List Char) :=
  match namingKeywords.find? (fun kw => hasPfx l kw) with
  | some kw => namingTail (l.drop kw.length)
  | none => none

/-- `re.search` for the naming pattern; the Boolean argument records
whether the previous character was a word character (for `\b`). -/
def namingSearch : Bool → List Char → Option (List Char)
  | _, [] => none
  | prevW, c :: t =>
    match (if prevW then none else namingAt (c :: t)) with
    | some v => some v
    | none => namingSearch (pyWordChar c) t

/-- The type-safety pattern `\bint\s+\w+` anchored at the head (head
position assumed to be a word boundary). -/
def tsAt (l : List Char) : Bool :=
  match litAfter l (cs "int") with
  | none => false
  | some r =>
    if (r.takeWhile pySpace).isEmpty then false
    else
      match r.dropWhile pySpace with
      | c :: _ => pyWordChar c
      | [] => false

/-- `re.search(r'\bint\s+\w+', line)`. -/
def tsSearch : Bool → List Char → Bool
  | _, [] => false
  | prevW, c :: t => (!prevW && tsAt (c :: t)) || tsSearch (pyWordChar c) t

/-- The `Severity` enum of `compliance_checker.py`. -/
inductive Severity where
  | minor
  | moderate
  | major
  | critical
deriving DecidableEq, Repr

/-- The `Violation` dataclass of `compliance_checker.py`. -/
structure Violation where
  rule_id : String
  rule_name : String
  description : String
  severity : Severity
  line_number : Nat
  suggestion : String
  code_snippet : String
deriving DecidableEq, Repr

/-- Python exceptions that the embedded code can raise. -/
inductive PyErr where
  | indexError
  | typeError
  | attributeError
  | jsonDecodeError
deriving DecidableEq, Repr

/-- Negative-index normalization of Python list subscription. -/
def pyNorm (len : Nat) (k : Int) : Int := if k < 0 then k + len else k

/-- Python list subscription `l[k]` with negative-index wraparound;
out-of-range raises `IndexError`. -/
def pyIdx (l : List (List Char)) (k : Int) : Except PyErr (List Char) :=
  if pyNorm l.length k < 0 then .error .indexError
  else
    match l.get? (pyNorm l.length k).toNat with
    | some a => .ok a
    | none => .error .indexError

/-- `load_code`: `code.split('\n')`. -/
def load_code (code : List Char) : List (List Char) := splitOnChar '\n' code

/-- Run a per-line detector (which may also look at the lines after the
current one) over the 1-indexed lines, concatenating the violations in
line order — the `for i, line in enumerate(self.code_lines, 1)` shape of
every rule method. -/
def perLineT (f : Nat → List Char → List (List Char) → List Violation) :
    Nat → List (List Char) → List Violation
  | _, [] => []
  | i, l :: t => f i l t ++ perLineT f (i + 1) t

/-- As `perLineT`, for per-line work that can raise (list subscription). -/
def perLineE (f : Nat → List Char → Except PyErr (List Violation)) :
    Nat → List (List Char) → Except PyErr (List Violation)
  | _, [] => .ok []
  | i, l :: t =>
    match f i l with
    | .error e => .error e
    | .ok vs =>
      match perLineE f (i + 1) t with
      | .error e => .error e
      | .ok rest => .ok (vs ++ rest)

/-! ### Rule 1: flow control -/

def mkGoto (i : Nat) (l : List Char) : Violation :=
  { rule_id := "rule_1", rule_name := "Avoid Complex Flow Control",
    description := "Use of goto statement detected", severity := .critical,
    line_number := i, suggestion := "Replace goto with structured control flow",
    code_snippet := ⟨stripChars l⟩ }

def mkSetjmp (i : Nat) (l : List Char) : Violation :=
  { rule_id := "rule_1", rule_name := "Avoid Complex Flow Control",
    description := "Use of setjmp/longjmp detected", severity := .critical,
    line_number := i, suggestion := "Use structured error handling instead",
    code_snippet := ⟨stripChars l⟩ }

def mkRecursion (i : Nat) (l : List Char) : Violation :=
  { rule_id := "rule_1", rule_name := "Avoid Complex Flow Control",
    description := "Recursive function call detected", severity := .critical,
    line_number := i, suggestion := "Use iterative approach instead of recursion",
    code_snippet := ⟨stripChars l⟩ }

/-- The scan `for j, check_line in enumerate(self.code_lines[i:], i+1)` of
the recursion heuristic: does `f'{func_name}('` occur on a later,
non-comment line?  (The Python loop appends one violation and breaks.) -/
def recursionScan (name : List Char) : List (List Char) → Bool
  | [] => false
  | l :: t =>
    (containsSub l (name ++ ['(']) && !isCommentLine l) || recursionScan name t

/-- One iteration of `_check_rule_1_flow_control` for the 1-indexed line
`l`; `rest` is `self.code_lines[i:]`, the lines after `l`. -/
def rule1Line (i : Nat) (l : List Char) (rest : List (List Char)) : List Violation :=
  (if containsSub l (cs "goto") && !isCommentLine l then [mkGoto i l] else []) ++
  (if (containsSub l (cs "setjmp") || containsSub l (cs "longjmp")) && !isCommentLine l
   then [mkSetjmp i l] else []) ++
  (match searchFuncSig1 l with
   | some (name, _) => if recursionScan name rest then [mkRecursion i l] else []
   | none => [])

/-- `_check_rule_1_flow_control`. -/
def check_rule_1_flow_control (lines : List (List Char)) : List Violation :=
  perLineT rule1Line 1 lines

/-! ### Rule 2: loop bounds -/

def boundedPat (l : List Char) : Bool :=
  containsSub l (cs "MAX_") || containsSub l (cs "count") ||
  containsSub l (cs "size") || containsSub l (cs "length")

def infinitePat (l : List Char) : Bool :=
  containsSub l (cs "true") || containsSub l (cs "1") || containsSub l (cs "!0")

def mkNoBound (i : Nat) (l : List Char) : Violation :=
  { rule_id := "rule_2", rule_name := "Fixed Loop Bounds",
    description := "Loop without clear upper bound detected", severity := .major,
    line_number := i, suggestion := "Add compile-time determinable upper bound",
    code_snippet := ⟨stripChars l⟩ }

def mkInfinite (i : Nat) (l : List Char) : Violation :=
  { rule_id := "rule_2", rule_name := "Fixed Loop Bounds",
    description := "Potential infinite loop detected", severity := .major,
    line_number := i, suggestion := "Add explicit loop counter and bounds checking",
    code_snippet := ⟨stripChars l⟩ }

/-- One iteration of `_check_rule_2_loop_bounds`: two independent checks,
appended in source order. -/
def rule2Line (i : Nat) (l : List Char) : List Violation :=
  (if whileOpenMatch l && !boundedPat l then [mkNoBound i l] else []) ++
  (if containsSub l (cs "while") && infinitePat l then [mkInfinite i l] else [])

/-- `_check_rule_2_loop_bounds`. -/
def check_rule_2_loop_bounds (lines : List (List Char)) : List Violation :=
  perLineT (fun i l _ => rule2Line i l) 1 lines

/-! ### Rules 3, 4, 5 -/

def mkRule3 (i : Nat) (l : List Char) : Violation :=
  { rule_id := "rule_3", rule_name := "No Dynamic Memory",
    description := "Dynamic memory allocation detected", severity := .critical,
    line_number := i, suggestion := "Use static allocation or stack-based allocation",
    code_snippet := ⟨stripChars l⟩ }

def rule3Line (i : Nat) (l : List Char) : List Violation :=
  if (containsSub l (cs "malloc") || containsSub l (cs "calloc") ||
      containsSub l (cs "realloc") || containsSub l (cs "free")) &&
     !isCommentLine l
  then [mkRule3 i l] else []

/-- `_check_rule_3_dynamic_memory`. -/
def check_rule_3_dynamic_memory (lines : List (List Char)) : List Violation :=
  perLineT (fun i l _ => rule3Line i l) 1 lines

/-- `len([p.strip() for p in params.split(',') if p.strip()])`. -/
def paramFields (ps : List Char) : Nat :=
  (((splitOnChar ',' ps).map stripChars).filter (fun p => !p.isEmpty)).length

def mkRule4 (i : Nat) (l : List Char) (n : Nat) : Violation :=
  { rule_id := "rule_4", rule_name := "Function Parameters",
    description := "Function with " ++ Nat.repr n ++ " parameters detected",
    severity := .major, line_number := i,
    suggestion := "Use structure to group related parameters",
    code_snippet := ⟨stripChars l⟩ }

def rule4Line (i : Nat) (l : List Char) : List Violation :=
  match searchFuncSig2 l with
  | some ps => if paramFields ps > 2 then [mkRule4 i l (paramFields ps)] else []
  | none => []

/-- `_check_rule_4_function_parameters`. -/
def check_rule_4_function_parameters (lines : List (List Char)) : List Violation :=
  perLineT (fun i l _ => rule4Line i l) 1 lines

def mkRule5 (i : Nat) (l : List Char) : Violation :=
  { rule_id := "rule_5", rule_name := "Pointer Dereferencing",
    description := "More than 2 levels of pointer indirection detected",
    severity := .major, line_number := i,
    suggestion := "Limit pointer indirection to 2 levels maximum",
    code_snippet := ⟨stripChars l⟩ }

def rule5Line (i : Nat) (l : List Char) : List Violation :=
  if containsSub l (cs "***") then [mkRule5 i l] else []

/-- `_check_rule_5_pointer_dereferencing`. -/
def check_rule_5_pointer_dereferencing (lines : List (List Char)) : List Violation :=
  perLineT (fun i l _ => rule5Line i l) 1 lines

/-! ### Rule 6: declaration placement (stateful scan) -/

def mkRule6 (i : Nat) (l : List Char) : Violation :=
  { rule_id := "rule_6", rule_name := "Variable Declarations",
    description := "Variable declaration may not be at scope beginning",
    severity := .minor, line_number := i,
    suggestion := "Move all variable declarations to beginning of scope",
    code_snippet := ⟨stripChars l⟩ }

/-- The `in_function` / `function_start` scan of `_check_rule_6`.  A
signature line opens a function record and is skipped (`continue`); a line
that strips to `}` closes it. -/
def rule6Go : Bool → Nat → Nat → List (List Char) → List Violation
  | _, _, _, [] => []
  | inFn, fs, i, l :: t =>
    if funcDef2At l then rule6Go true i (i + 1) t
    else
      (if inFn && declMatch l && decide (i > fs + 2) then [mkRule6 i l] else []) ++
      rule6Go (if stripChars l == ['\x7d'] && inFn then false else inFn) fs (i + 1) t

/-- `_check_rule_6_variable_declarations`. -/
def check_rule_6_variable_declarations (lines : List (List Char)) : List Violation :=
  rule6Go false 0 1 lines

/-! ### Rule 7: single return (stateful, subscripts `code_lines`) -/

def mkRule7 (fs : Nat) (n : Nat) (sig : List Char) : Violation :=
  { rule_id := "rule_7", rule_name := "Single Return Point",
    description := "Function with " ++ Nat.repr n ++ " return statements detected",
    severity := .moderate, line_number := fs,
    suggestion := "Use single return point with result variable",
    code_snippet := ⟨stripChars sig⟩ }

/-- The `return_count` update of one rule-7 iteration. -/
def rule7Count (inFn : Bool) (l : List Char) (rc : Nat) : Nat :=
  if inFn && containsSub l (cs "return") && !isCommentLine l then rc + 1 else rc

/-- The `in_function` / `function_start` / `return_count` scan of
`_check_rule_7_single_return`; `lines` is the whole file, subscripted on a
close with `self.code_lines[function_start-1]`. -/
def rule7Go (lines : List (List Char)) :
    Bool → Nat → Nat → Nat → List (List Char) → Except PyErr (List Violation)
  | _, _, _, _, [] => .ok []
  | inFn, fs, rc, i, l :: t =>
    if funcDef2At l then rule7Go lines true i 0 (i + 1) t
    else
      if stripChars l == ['\x7d'] && inFn then
        if rule7Count inFn l rc > 1 then
          match pyIdx lines ((fs : Int) - 1) with
          | .error e => .error e
          | .ok sig =>
            (match rule7Go lines false fs (rule7Count inFn l rc) (i + 1) t with
             | .error e => .error e
             | .ok vs => .ok (mkRule7 fs (rule7Count inFn l rc) sig :: vs))
        else rule7Go lines false fs (rule7Count inFn l rc) (i + 1) t
      else rule7Go lines inFn fs (rule7Count inFn l rc) (i + 1) t

/-- `_check_rule_7_single_return`. -/
def check_rule_7_single_return (lines : List (List Char)) : Except PyErr (List Violation) :=
  rule7Go lines false 0 0 1 lines

/-! ### Rules 8, 9, 10 -/

def mkRule8 (i : Nat) (l : List Char) : Violation :=
  { rule_id := "rule_8", rule_name := "Preprocessor Usage",
    description := "Preprocessor directive other than #include detected",
    severity := .minor, line_number := i,
    suggestion := "Use const declarations instead of #define",
    code_snippet := ⟨stripChars l⟩ }

def rule8Line (i : Nat) (l : List Char) : List Violation :=
  if hasPfx (stripChars l) (cs "#") && !hasPfx (stripChars l) (cs "#include")
  then [mkRule8 i l] else []

/-- `_check_rule_8_preprocessor`. -/
def check_rule_8_preprocessor (lines : List (List Char)) : List Violation :=
  perLineT (fun i l _ => rule8Line i l) 1 lines

def mkRule9 (i : Nat) (l : List Char) : Violation :=
  { rule_id := "rule_9", rule_name := "Assignment in Expressions",
    description := "Assignment in conditional expression detected",
    severity := .moderate, line_number := i,
    suggestion := "Separate assignment from condition checking",
    code_snippet := ⟨stripChars l⟩ }

def rule9Line (i : Nat) (l : List Char) : List Violation :=
  if rule9Search l then [mkRule9 i l] else []

/-- `_check_rule_9_assignment_expressions`. -/
def check_rule_9_assignment_expressions (lines : List (List Char)) : List Violation :=
  perLineT (fun i l _ => rule9Line i l) 1 lines

def mkRule10 (i : Nat) (l : List Char) : Violation :=
  { rule_id := "rule_10", rule_name := "Multiple Assignments",
    description := "Multiple assignments in single statement detected",
    severity := .minor, line_number := i,
    suggestion := "Use separate assignment statements",
    code_snippet := ⟨stripChars l⟩ }

/-- One iteration of `_check_rule_10_multiple_assignments`:
`line.count('=') > 1 and '==' not in line`. -/
def rule10Line (i : Nat) (l : List Char) : List Violation :=
  if l.count '=' > 1 && !containsSub l (cs "==") then [mkRule10 i l] else []

/-- `_check_rule_10_multiple_assignments`. -/
def check_rule_10_multiple_assignments (lines : List (List Char)) : List Violation :=
  perLineT (fun i l _ => rule10Line i l) 1 lines

/-! ### Style rules -/

def mkNaming (i : Nat) (l : List Char) (v : List Char) : Violation :=
  { rule_id := "style_naming", rule_name := "Naming Conventions",
    description := "Variable name \x27" ++ (⟨v⟩ : String) ++ "\x27 is too short",
    severity := .minor, line_number := i,
    suggestion := "Use descriptive variable names",
    code_snippet := ⟨stripChars l⟩ }

/-- One iteration of `_check_naming_conventions` (the `len(var_name) < 3`
test of the source is kept even though the captured group has at most two
characters). -/
def namingLine (i : Nat) (l : List Char) : List Violation :=
  match namingSearch false l with
  | some v => if v.length < 3 then [mkNaming i l v] else []
  | none => []

/-- `_check_naming_conventions`. -/
def check_naming_conventions (lines : List (List Char)) : List Violation :=
  perLineT (fun i l _ => namingLine i l) 1 lines

def mkFnLen (fs : Nat) (n : Nat) (sig : List Char) : Violation :=
  { rule_id := "style_function_length", rule_name := "Function Length",
    description := "Function is " ++ Nat.repr n ++
      " lines long (exceeds 50 line limit)",
    severity := .moderate, line_number := fs,
    suggestion := "Break function into smaller functions",
    code_snippet := ⟨stripChars sig⟩ }

/-- The `line_count` update of one function-length iteration. -/
def fnLenCount (inFn : Bool) (lc : Nat) : Nat := if inFn then lc + 1 else lc

/-- The stateful scan of `_check_function_length` (`line_count` counts
every line after the signature, including the closing brace line). -/
def fnLenGo (lines : List (List Char)) :
    Bool → Nat → Nat → Nat → List (List Char) → Except PyErr (List Violation)
  | _, _, _, _, [] => .ok []
  | inFn, fs, lc, i, l :: t =>
    if funcDef2At l then fnLenGo lines true i 0 (i + 1) t
    else
      if stripChars l == ['\x7d'] && inFn then
        if fnLenCount inFn lc > 50 then
          match pyIdx lines ((fs : Int) - 1) with
          | .error e => .error e
          | .ok sig =>
            (match fnLenGo lines false fs (fnLenCount inFn lc) (i + 1) t with
             | .error e => .error e
             | .ok vs => .ok (mkFnLen fs (fnLenCount inFn lc) sig :: vs))
        else fnLenGo lines false fs (fnLenCount inFn lc) (i + 1) t
      else fnLenGo lines inFn fs (fnLenCount inFn lc) (i + 1) t

/-- `_check_function_length`. -/
def check_function_length (lines : List (List Char)) : Except PyErr (List Violation) :=
  fnLenGo lines false 0 0 1 lines

def mkComments (i : Nat) (l : List Char) : Violation :=
  { rule_id := "style_comments", rule_name := "Comment Coverage",
    description := "Function without header comment detected",
    severity := .minor, line_number := i,
    suggestion := "Add function header comment explaining purpose and parameters",
    code_snippet := ⟨stripChars l⟩ }

/-- The `for j in range(max(0, i-3), i)` scan of `_check_comment_coverage`,
subscripting `self.code_lines[j]`. -/
def commentScan (lines : List (List Char)) : List Nat → Except PyErr Bool
  | [] => .ok false
  | j :: js =>
    match pyIdx lines (j : Int) with
    | .error e => .error e
    | .ok cl =>
      if hasPfx (stripChars cl) (cs "//") || hasPfx (stripChars cl) (cs "/*")
      then .ok true else commentScan lines js

/-- One iteration of `_check_comment_coverage`. -/
def commentLine (lines : List (List Char)) (i : Nat) (l : List Char) :
    Except PyErr (List Violation) :=
  if funcSig2OptAt l then
    match commentScan lines (List.range' (i - 3) (i - (i - 3))) with
    | .error e => .error e
    | .ok b => .ok (if b then [] else [mkComments i l])
  else .ok []

/-- `_check_comment_coverage`. -/
def check_comment_coverage (lines : List (List Char)) : Except PyErr (List Violation) :=
  perLineE (commentLine lines) 1 lines

def mkErrHandling (i : Nat) (l : List Char) : Violation :=
  { rule_id := "style_error_handling", rule_name := "Error Handling",
    description := "Void function without apparent error handling",
    severity := .minor, line_number := i,
    suggestion := "Consider returning error codes or implementing error handling",
    code_snippet := ⟨stripChars l⟩ }

/-- The `for j in range(i, min(i+20, len(self.code_lines)))` scan of
`_check_error_handling`. -/
def errScan (lines : List (List Char)) : List Nat → Except PyErr Bool
  | [] => .ok false
  | j :: js =>
    match pyIdx lines (j : Int) with
    | .error e => .error e
    | .ok cl =>
      if containsSub (cl.map Char.toLower) (cs "error") || containsSub cl (cs "return")
      then .ok true else errScan lines js

/-- One iteration of `_check_error_handling`. -/
def errLine (lines : List (List Char)) (i : Nat) (l : List Char) :
    Except PyErr (List Violation) :=
  if voidSigAt l then
    match errScan lines (List.range' i (min (i + 20) lines.length - i)) with
    | .error e => .error e
    | .ok b => .ok (if b then [] else [mkErrHandling i l])
  else .ok []

/-- `_check_error_handling`. -/
def check_error_handling (lines : List (List Char)) : Except PyErr (List Violation) :=
  perLineE (errLine lines) 1 lines

def mkTypeSafety (i : Nat) (l : List Char) : Violation :=
  { rule_id := "style_type_safety", rule_name := "Type Safety",
    description := "Use of implicit integer type \x27int\x27",
    severity := .minor, line_number := i,
    suggestion := "Use explicit integer types from stdint.h",
    code_snippet := ⟨stripChars l⟩ }

/-- One iteration of `_check_type_safety`: the `'stdint.h' not in
'\n'.join(self.code_lines[:i])` test sees the first `i` lines, the current
one included. -/
def tsLine (lines : List (List Char)) (i : Nat) (l : List Char) : List Violation :=
  if tsSearch false l && !containsSub (joinNl (lines.take i)) (cs "stdint.h")
  then [mkTypeSafety i l] else []

/-- `_check_type_safety`. -/
def check_type_safety (lines : List (List Char)) : List Violation :=
  perLineT (fun i l _ => tsLine lines i l) 1 lines

/-! ### `check_all_rules`, scoring and classification -/

/-- `check_all_rules`: the fifteen checkers in source order, their
violations concatenated (each method appends to the shared
`self.violations` list). -/
def check_all_rules (lines : List (List Char)) : Except PyErr (List Violation) :=
  match check_rule_7_single_return lines with
  | .error e => .error e
  | .ok v7 =>
    match check_function_length lines with
    | .error e => .error e
    | .ok vfl =>
      match check_comment_coverage lines with
      | .error e => .error e
      | .ok vcc =>
        match check_error_handling lines with
        | .error e => .error e
        | .ok veh =>
          .ok (check_rule_1_flow_control lines ++ check_rule_2_loop_bounds lines ++
               check_rule_3_dynamic_memory lines ++ check_rule_4_function_parameters lines ++
               check_rule_5_pointer_dereferencing lines ++
               check_rule_6_variable_declarations lines ++ v7 ++
               check_rule_8_preprocessor lines ++ check_rule_9_assignment_expressions lines ++
               check_rule_10_multiple_assignments lines ++ check_naming_conventions lines ++
               vfl ++ vcc ++ veh ++ check_type_safety lines)

/-- The `severity_penalties` table of `calculate_compliance_score`
(defined on every `Severity`, so the `.get(..., 5)` default of the source
is never consulted). -/
def severityPenalty : Severity → Int
  | .minor => 2
  | .moderate => 5
  | .major => 10
  | .critical => 15

/-- `calculate_compliance_score`: 100 for an empty list, otherwise the
loop `base_score -= severity_penalties.get(...)` followed by
`max(0, base_score)`. -/
def calculate_compliance_score (vs : List Violation) : Int :=
  if vs.isEmpty then 100
  else max 0 (vs.foldl (fun b v => b - severityPenalty v.severity) 100)

/-- `get_compliance_level`: fixed thresholds on the score. -/
def get_compliance_level (vs : List Violation) : String :=
  let score := calculate_compliance_score vs
  if score ≥ 90 then "fully_compliant"
  else if score ≥ 80 then "minor_issues"
  else if score ≥ 70 then "moderate_issues"
  else if score ≥ 60 then "major_issues"
  else "non_compliant"

/-- The score formula exactly as the specification states it:
`max(0, 100 − Σ penalty(violation.severity))`.  (Stated from the spec's
words, for comparison with `calculate_compliance_score`.) -/
def specScoreFormula (vs : List Violation) : Int :=
  max 0 (100 - (vs.map (fun v => severityPenalty v.severity)).sum)

/-! ### JSON values and `json.loads`
(`static_analysis_integration.py` feeds clang-tidy output through
`json.loads`; the decoder below models the strict JSON grammar accepted by
Python's `json` module, plus its `NaN`/`Infinity` extensions.  Numeric
values retain only their integer part — downstream code never computes
with them, it only distinguishes iterable from non-iterable shapes.) -/

/-- A decoded Python JSON value.  Objects are insertion-ordered key/value
lists (duplicate keys overwritten in place, like a Python dict). -/
inductive JVal where
  | null
  | bool (b : Bool)
  | num (n : Int)
  | str (s : List Char)
  | arr (xs : List JVal)
  | obj (kvs : List (List Char × JVal))

/-- Python `==` between a str and an arbitrary value (False across types). -/
def jvalEqStr (needle : List Char) : JVal → Bool
  | .str s => s == needle
  | _ => false

/-- JSON inter-token whitespace. -/
def jsonWsChar (c : Char) : Bool := c == ' ' || c == '\t' || c == '\n' || c == '\r'

def skipWs (l : List Char) : List Char := l.dropWhile jsonWsChar

def hexDigit (c : Char) : Option Nat :=
  if c.isDigit then some (c.toNat - 48)
  else if 'a' ≤ c && c ≤ 'f' then some (c.toNat - 87)
  else if 'A' ≤ c && c ≤ 'F' then some (c.toNat - 55)
  else none

/-- Parse the body of a JSON string (after the opening quote), returning
the content and the remainder after the closing quote.  Unescaped control
characters and unknown escapes are rejected, as in Python's strict mode. -/
def parseJStrBody : Nat → List Char → Option (List Char × List Char)
  | 0, _ => none
  | _, [] => none
  | fuel + 1, c :: r =>
    if c == '"' then some ([], r)
    else if c == '\\' then
      match r with
      | [] => none
      | e :: r2 =>
        let esc : Option (Char × List Char) :=
          if e == '"' then some ('"', r2)
          else if e == '\\' then some ('\\', r2)
          else if e == '/' then some ('/', r2)
          else if e == 'b' then some ('\x08', r2)
          else if e == 'f' then some ('\x0c', r2)
          else if e == 'n' then some ('\n', r2)
          else if e == 'r' then some ('\r', r2)
          else if e == 't' then some ('\t', r2)
          else if e == 'u' then
            match r2 with
            | h1 :: h2 :: h3 :: h4 :: r3 =>
              (match hexDigit h1, hexDigit h2, hexDigit h3, hexDigit h4 with
               | some a, some b, some c2, some d =>
                 some (Char.ofNat (((a * 16 + b) * 16 + c2) * 16 + d), r3)
               | _, _, _, _ => none)
            | _ => none
          else none
        match esc with
        | none => none
        | some (ch, rest) => (parseJStrBody fuel rest).map (fun p => (ch :: p.1, p.2))
    else if c.toNat < 32 then none
    else (parseJStrBody fuel r).map (fun p => (c :: p.1, p.2))

/-- Parse a JSON number (`-? (0 | [1-9][0-9]*) frac? exp?`), keeping the
signed integer part. -/
def parseJNum (l : List Char) : Option (JVal × List Char) :=
  let (neg, r) := match l with | '-' :: rest => (true, rest) | _ => (false, l)
  match r with
  | [] => none
  | c :: _ =>
    if !c.isDigit then none
    else
      let intDigits := r.takeWhile Char.isDigit
      if intDigits.length > 1 && c == '0' then none
      else
        let r2 := r.dropWhile Char.isDigit
        let afterFrac : Option (List Char) :=
          match r2 with
          | '.' :: r3 =>
            if (r3.takeWhile Char.isDigit).isEmpty then none
            else some (r3.dropWhile Char.isDigit)
          | _ => some r2
        match afterFrac with
        | none => none
        | some r4 =>
          let afterExp : Option (List Char) :=
            match r4 with
            | e :: r5 =>
              if e == 'e' || e == 'E' then
                let r6 := match r5 with
                  | s :: r6a => if s == '+' || s == '-' then r6a else r5
                  | [] => r5
                if (r6.takeWhile Char.isDigit).isEmpty then none
                else some (r6.dropWhile Char.isDigit)
              else some r4
            | [] => some r4
          match afterExp with
          | none => none
          | some r7 =>
            let n : Int := (intDigits.foldl (fun a d => a * 10 + (d.toNat - 48)) 0 : Nat)
            some (.num (if neg then -n else n), r7)

/-- Python-dict insertion: overwrite an existing key in place, else append. -/
def objInsert (acc : List (List Char × JVal)) (k : List Char) (v : JVal) :
    List (List Char × JVal) :=
  if acc.any (fun kv => kv.1 == k) then
    acc.map (fun kv => if kv.1 == k then (kv.1, v) else kv)
  else acc ++ [(k, v)]

mutual

/-- Parse one JSON value (fuel decreases on every recursive call; each
unit of fuel corresponds to at least one consumed character or one
grammar-rule step, so the generous budget in `json_loads` suffices for
every valid input). -/
def parseJVal : Nat → List Char → Option (JVal × List Char)
  | 0, _ => none
  | fuel + 1, l0 =>
    let l := skipWs l0
    match l with
    | [] => none
    | c :: r =>
      if c == '"' then (parseJStrBody fuel r).map (fun p => (.str p.1, p.2))
      else if c == '[' then
        (match skipWs r with
         | ']' :: r2 => some (.arr [], r2)
         | r2 => (parseJArrItems fuel r2).map (fun p => (.arr p.1, p.2)))
      else if c == '\x7b' then
        (match skipWs r with
         | '\x7d' :: r2 => some (.obj [], r2)
         | r2 => (parseJObjItems fuel [] r2).map (fun p => (.obj p.1, p.2)))
      else if hasPfx l (cs "null") then some (.null, l.drop 4)
      else if hasPfx l (cs "true") then some (.bool true, l.drop 4)
      else if hasPfx l (cs "false") then some (.bool false, l.drop 5)
      else if hasPfx l (cs "NaN") then some (.num 0, l.drop 3)
      else if hasPfx l (cs "Infinity") then some (.num 0, l.drop 8)
      else if hasPfx l (cs "-Infinity") then some (.num 0, l.drop 9)
      else parseJNum l

/-- Parse the elements of a non-empty JSON array (after `[`). -/
def parseJArrItems : Nat → List Char → Option (List JVal × List Char)
  | 0, _ => none
  | fuel + 1, l =>
    match parseJVal fuel l with
    | none => none
    | some (v, r) =>
      match skipWs r with
      | ',' :: r2 => (parseJArrItems fuel r2).map (fun p => (v :: p.1, p.2))
      | ']' :: r2 => some ([v], r2)
      | _ => none

/-- Parse the members of a non-empty JSON object (after `{`),
accumulating with Python-dict insertion semantics. -/
def parseJObjItems : Nat → List (List Char × JVal) → List Char →
    Option (List (List Char × JVal) × List Char)
  | 0, _, _ => none
  | fuel + 1, acc, l =>
    match skipWs l with
    | '"' :: r =>
      (match parseJStrBody fuel r with
       | none => none
       | some (k, r2) =>
         match skipWs r2 with
         | ':' :: r3 =>
           (match parseJVal fuel r3 with
            | none => none
            | some (v, r4) =>
              match skipWs r4 with
              | ',' :: r5 => parseJObjItems fuel (objInsert acc k v) r5
              | '\x7d' :: r5 => some (objInsert acc k v, r5)
              | _ => none)
         | _ => none)
    | _ => none

end

/-- `json.loads`: parse the whole input (possibly surrounded by
whitespace); anything else raises `json.JSONDecodeError`. -/
def json_loads (raw : List Char) : Except PyErr JVal :=
  match parseJVal (4 * raw.length + 8) raw with
  | some (v, rest) =>
    if (skipWs rest).isEmpty then .ok v else .error .jsonDecodeError
  | none => .error .jsonDecodeError

/-! ### Python dynamic operations on JSON values -/

/-- Python `for x in v`: lists yield elements, strings yield their
characters, dicts yield their keys; anything else raises TypeError. -/
def pyIterate : JVal → Except PyErr (List JVal)
  | .arr xs => .ok xs
  | .str s => .ok (s.map (fun c => JVal.str [c]))
  | .obj kvs => .ok (kvs.map (fun kv => JVal.str kv.1))
  | _ => .error .typeError

/-- Python `needle in v` for a str needle: dict key membership, substring
test, or list element equality; TypeError on non-containers. -/
def pyInContains (needle : List Char) : JVal → Except PyErr Bool
  | .obj kvs => .ok (kvs.any (fun kv => kv.1 == needle))
  | .str s => .ok (containsSub s needle)
  | .arr xs => .ok (xs.any (jvalEqStr needle))
  | _ => .error .typeError

/-- Python `v[key]` for a str key: dict lookup (a missing key would be a
KeyError, unreachable here behind the `in` guard, modelled as
`indexError`); str/list subscription by a str raises TypeError. -/
def pySubscript (v : JVal) (key : List Char) : Except PyErr JVal :=
  match v with
  | .obj kvs =>
    (match kvs.find? (fun kv => kv.1 == key) with
     | some kv => .ok kv.2
     | none => .error .indexError)
  | _ => .error .typeError

/-- Python `v.get(key, default)`: only dicts have a `.get` attribute. -/
def pyGet (v : JVal) (key : List Char) (dflt : JVal) : Except PyErr JVal :=
  match v with
  | .obj kvs => .ok (((kvs.find? (fun kv => kv.1 == key)).map Prod.snd).getD dflt)
  | _ => .error .attributeError

/-! ### The clang-tidy adapter (`static_analysis_integration.py`) -/

/-- The `StaticAnalysisResult` dataclass.  The fields filled from parsed
JSON keep the stored JSON value (the Python dataclass stores whatever
`diag.get` returned); `confidence` is the fixed per-tool constant in
hundredths (0.85 → 85). -/
structure StaticAnalysisResult where
  tool_name : List Char
  file_path : List Char
  line_number : JVal
  severity : JVal
  message : JVal
  rule_id : JVal
  category : List Char
  confidence : Nat

/-- The static `_map_clang_tidy_to_nasa` lookup table. -/
def clang_tidy_nasa_map : List (List Char × List Char) :=
  [(cs "bugprone-assignment-in-if-condition", cs "rule_9"),
   (cs "bugprone-branch-clone", cs "style_logic"),
   (cs "bugprone-dangling-handle", cs "rule_5"),
   (cs "bugprone-dynamic-static-initializers", cs "rule_3"),
   (cs "bugprone-exception-escape", cs "rule_1"),
   (cs "bugprone-fold-init-type", cs "style_types"),
   (cs "bugprone-forward-declaration-namespace", cs "style_includes"),
   (cs "bugprone-forwarding-reference-overload", cs "style_functions"),
   (cs "bugprone-inaccurate-erase", cs "style_containers"),
   (cs "bugprone-infinite-loop", cs "rule_2"),
   (cs "bugprone-integer-division", cs "style_arithmetic"),
   (cs "bugprone-lambda-function-name", cs "style_functions"),
   (cs "bugprone-macro-parentheses", cs "rule_8"),
   (cs "bugprone-macro-repeated-side-effects", cs "rule_8"),
   (cs "bugprone-misplaced-operator-new", cs "rule_3"),
   (cs "bugprone-misplaced-pointer-arithmetic-in-alloc", cs "rule_3"),
   (cs "bugprone-misplaced-widening-cast", cs "style_types"),
   (cs "bugprone-move-forwarding-reference", cs "style_functions"),
   (cs "bugprone-multiple-statement-macro", cs "rule_8"),
   (cs "bugprone-no-escape", cs "style_security"),
   (cs "bugprone-not-null-terminated-result", cs "style_strings"),
   (cs "bugprone-parent-virtual-call", cs "style_inheritance"),
   (cs "bugprone-posix-return", cs "style_functions"),
   (cs "bugprone-reserved-identifier", cs "style_naming"),
   (cs "bugprone-sizeof-container", cs "style_containers"),
   (cs "bugprone-sizeof-expression", cs "style_types"),
   (cs "bugprone-spuriously-missing-initialization", cs "rule_6"),
   (cs "bugprone-string-constructor", cs "style_strings"),
   (cs "bugprone-string-integer-assignment", cs "style_types"),
   (cs "bugprone-string-literal-with-embedded-nul", cs "style_strings"),
   (cs "bugprone-suspicious-enum-usage", cs "style_enums"),
   (cs "bugprone-suspicious-missing-comma", cs "style_syntax"),
   (cs "bugprone-suspicious-semicolon", cs "style_syntax"),
   (cs "bugprone-suspicious-string-compare", cs "style_strings"),
   (cs "bugprone-swapped-arguments", cs "style_functions"),
   (cs "bugprone-terminating-continue", cs "rule_1"),
   (cs "bugprone-throw-keyword-missing", cs "style_exceptions"),
   (cs "bugprone-too-small-loop-variable", cs "style_types"),
   (cs "bugprone-undefined-behavior", cs "style_undefined"),
   (cs "bugprone-undelegated-constructor", cs "style_classes"),
   (cs "bugprone-unhandled-self-move", cs "style_moves"),
   (cs "bugprone-unused-raii", cs "style_resources"),
   (cs "bugprone-unused-return-value", cs "style_functions"),
   (cs "bugprone-use-after-move", cs "style_moves"),
   (cs "bugprone-virtual-near-miss", cs "style_inheritance")]

/-- `_map_clang_tidy_to_nasa`: `mapping.get(rule_id, 'style_general')`.
An unhashable key (list/dict) raises TypeError; any other value misses
and falls back to `style_general`. -/
def map_clang_tidy_to_nasa (rule_id : JVal) : Except PyErr (List Char) :=
  match rule_id with
  | .arr _ => .error .typeError
  | .obj _ => .error .typeError
  | .str s =>
    .ok (((clang_tidy_nasa_map.find? (fun kv => kv.1 == s)).map Prod.snd).getD
          (cs "style_general"))
  | _ => .ok (cs "style_general")

/-- One `diag` of the inner loop of `_parse_clang_tidy_json`: the category
mapping is computed first, then the `StaticAnalysisResult` fields are
filled by `diag.get` calls in source order. -/
def parseCtDiag (fp : List Char) (diag : JVal) : Except PyErr StaticAnalysisResult := do
  let cn ← pyGet diag (cs "check_name") (JVal.str [])
  let nasa ← map_clang_tidy_to_nasa cn
  let line ← pyGet diag (cs "line") (JVal.num 0)
  let lvl ← pyGet diag (cs "level") (JVal.str (cs "warning"))
  let msg ← pyGet diag (cs "message") (JVal.str [])
  let cn2 ← pyGet diag (cs "check_name") (JVal.str [])
  pure ⟨cs "clang-tidy", fp, line, lvl, msg, cn2, nasa, 85⟩

/-- The inner `for diag in diagnostic['diagnostics']` loop. -/
def parseCtDiags (fp : List Char) : List JVal → Except PyErr (List StaticAnalysisResult)
  | [] => .ok []
  | d :: ds => do
    let r ← parseCtDiag fp d
    let rest ← parseCtDiags fp ds
    pure (r :: rest)

/-- The outer `for diagnostic in data` loop. -/
def parseCtOuter (fp : List Char) : List JVal → Except PyErr (List StaticAnalysisResult)
  | [] => .ok []
  | d :: ds => do
    let hasd ← pyInContains (cs "diagnostics") d
    if hasd then
      let dv ← pySubscript d (cs "diagnostics")
      let items ← pyIterate dv
      let rs ← parseCtDiags fp items
      let rest ← parseCtOuter fp ds
      pure (rs ++ rest)
    else
      parseCtOuter fp ds

/-- `_parse_clang_tidy_json`: the try block covers `json.loads` and both
loops; only `json.JSONDecodeError` is caught (warning logged, the empty
`results` list returned) — every other exception propagates. -/
def parse_clang_tidy_json (raw : List Char) (fp : List Char) :
    Except PyErr (List StaticAnalysisResult) :=
  match json_loads raw with
  | .error _ => .ok []
  | .ok data => do
    let items ← pyIterate data
    parseCtOuter fp items

/-! ### Availability probes and `run_all_tools` -/

/-- The four external analyzers. -/
inductive ToolName where
  | cppcheck
  | clang_tidy
  | splint
  | flawfinder
deriving DecidableEq

/-- The observable outcome of `subprocess.run([tool, '--version'],
capture_output=True, text=True, timeout=5)`: normal completion with an
exit code, `subprocess.TimeoutExpired`, or `FileNotFoundError` (binary
absent). -/
inductive LaunchOutcome where
  | completed (returncode : Int)
  | timeoutExpired
  | fileNotFound

/-- `_check_cppcheck_available` (and its three structurally identical
siblings): `returncode == 0`, with `TimeoutExpired` and
`FileNotFoundError` caught and turned into `False`. -/
def check_tool_available : LaunchOutcome → Bool
  | .completed rc => rc == 0
  | .timeoutExpired => false
  | .fileNotFound => false

/-- `run_all_tools`: the results dict, built in fixed tool order, with
each `run_<tool>` invoked only behind the `if self.tools[...]` guard;
`runTool` stands for the invoke-and-parse work of the available tools. -/
def run_all_tools (tools : ToolName → Bool)
    (runTool : ToolName → List StaticAnalysisResult) :
    List (ToolName × List StaticAnalysisResult) :=
  (if tools .cppcheck then [(ToolName.cppcheck, runTool .cppcheck)] else []) ++
  (if tools .clang_tidy then [(ToolName.clang_tidy, runTool .clang_tidy)] else []) ++
  (if tools .splint then [(ToolName.splint, runTool .splint)] else []) ++
  (if tools .flawfinder then [(ToolName.flawfinder, runTool .flawfinder)] else [])

/-! ### Auxiliary definitions for the claims about rule 1 -/

/-- The recursion trigger as claim C3 states it (written from the claim's
words, for comparison with the source behaviour): the function's name
reappears as a call, outside `//` comments, strictly between the signature
line (1-indexed `i`) and the function's closing brace — the first later
line whose stripped content is `}`. -/
def callWithinOwnBody (lines : List (List Char)) (i : Nat) (name : List Char) : Bool :=
  ((lines.drop i).takeWhile (fun l => !(stripChars l == ['\x7d']))).any
    (fun l => containsSub l (name ++ ['(']) && !isCommentLine l)

/-- A three-line file where `foo` is called after its own body closed:
`void foo(void) {` / `}` / `foo();`. -/
def laterCallFile : List (List Char) :=
  [cs "void foo(void) \x7b", cs "\x7d", cs "foo();"]

/-! ## Theorems -/

/-! ### Generic lemmas about the per-line scans -/

theorem line_ge_of_mem_perLineT
    (f : Nat → List Char → List (List Char) → List Violation)
    (hf : ∀ i l r v, v ∈ f i l r → v.line_number = i) :
    ∀ (t : List (List Char)) (i : Nat) (v : Violation),
      v ∈ perLineT f i t → i ≤ v.line_number := by
  intro t
  induction t with
  | nil => intro i v hv; simp [perLineT] at hv
  | cons l t2 ih =>
    intro i v hv
    rcases List.mem_append.mp hv with h | h
    · exact (hf i l t2 v h).ge
    · exact Nat.le_of_succ_le (ih (i + 1) v h)

theorem filter_perLineT
    (f : Nat → List Char → List (List Char) → List Violation)
    (p : Violation → Bool)
    (hf : ∀ i l r v, v ∈ f i l r → v.line_number = i)
    (j : Nat) (hp : ∀ v, p v = true → v.line_number = j) :
    ∀ (pre : List (List Char)) (i : Nat) (l : List Char) (post : List (List Char)),
      i + pre.length = j →
      (perLineT f i (pre ++ l :: post)).filter p = (f j l post).filter p := by
  intro pre
  induction pre with
  | nil =>
    intro i l post hij
    simp only [List.length_nil, Nat.add_zero] at hij
    subst hij
    show ((f i l post ++ perLineT f (i + 1) (post : List (List Char))).filter p) = _
    rw [List.filter_append]
    have h2 : (perLineT f (i + 1) post).filter p = [] := by
      rw [List.filter_eq_nil_iff]
      intro v hv hpv
      have h3 := line_ge_of_mem_perLineT f hf post (i + 1) v hv
      have h4 := hp v hpv
      omega
    rw [h2, List.append_nil]
  | cons a pre2 ih =>
    intro i l post hij
    show ((f i a (pre2 ++ l :: post) ++
           perLineT f (i + 1) (pre2 ++ l :: post)).filter p) = _
    rw [List.filter_append]
    have h1 : (f i a (pre2 ++ l :: post)).filter p = [] := by
      rw [List.filter_eq_nil_iff]
      intro v hv hpv
      have h3 := hf i a _ v hv
      have h4 := hp v hpv
      simp only [List.length_cons] at hij
      omega
    rw [h1, List.nil_append]
    apply ih
    simp only [List.length_cons] at hij
    omega

theorem rule1Line_line_number :
    ∀ (i : Nat) (l : List Char) (r : List (List Char)) (v : Violation),
      v ∈ rule1Line i l r → v.line_number = i := by
  intro i l r v hv
  unfold rule1Line at hv
  rcases List.mem_append.mp hv with h | h
  · rcases List.mem_append.mp h with h2 | h2
    · split at h2 <;> simp_all [mkGoto]
    · split at h2 <;> simp_all [mkSetjmp]
  · split at h
    · split at h <;> simp_all [mkRecursion]
    · simp at h

theorem rule2Line_line_number :
    ∀ (i : Nat) (l : List Char) (v : Violation),
      v ∈ rule2Line i l → v.line_number = i := by
  intro i l v hv
  unfold rule2Line at hv
  rcases List.mem_append.mp hv with h | h <;>
    (split at h <;> simp_all [mkNoBound, mkInfinite])

theorem rule10Line_line_number :
    ∀ (i : Nat) (l : List Char) (v : Violation),
      v ∈ rule10Line i l → v.line_number = i := by
  intro i l v hv
  unfold rule10Line at hv
  split at hv <;> simp_all [mkRule10]

theorem hasPfx_containsSub (s n : List Char) (h : hasPfx s n = true) :
    containsSub s n = true := by
  cases s with
  | nil =>
    cases n with
    | nil => rfl
    | cons b bs => simp [hasPfx] at h
  | cons a t => simp [containsSub, h]

theorem containsSub_append_right (s t n : List Char)
    (h : containsSub t n = true) : containsSub (s ++ t) n = true := by
  induction s with
  | nil => simpa using h
  | cons a s2 ih => simp [containsSub, ih]

theorem whileOpenMatch_contains_while (l : List Char)
    (h : whileOpenMatch l = true) : containsSub l (cs "while") = true := by
  cases hpf : hasPfx (l.dropWhile pySpace) (cs "while") with
  | false => simp [whileOpenMatch, litAfter, hpf] at h
  | true =>
    have h1 : containsSub (l.dropWhile pySpace) (cs "while") = true :=
      hasPfx_containsSub _ _ hpf
    have h2 := containsSub_append_right (l.takeWhile pySpace) (l.dropWhile pySpace) _ h1
    rwa [List.takeWhile_append_dropWhile] at h2

theorem mem_perLineT_exists
    (f : Nat → List Char → List (List Char) → List Violation) :
    ∀ (t : List (List Char)) (i : Nat) (v : Violation),
      v ∈ perLineT f i t → ∃ j l r, v ∈ f j l r := by
  intro t
  induction t with
  | nil => intro i v hv; simp [perLineT] at hv
  | cons l t2 ih =>
    intro i v hv
    rcases List.mem_append.mp hv with h | h
    · exact ⟨i, l, t2, h⟩
    · exact ih (i + 1) v h

theorem rule2Line_fields (i : Nat) (l : List Char) (v : Violation)
    (hv : v ∈ rule2Line i l) :
    v.rule_id = "rule_2" ∧ v.rule_name = "Fixed Loop Bounds" ∧
      v.severity = Severity.major := by
  unfold rule2Line at hv
  rcases List.mem_append.mp hv with h | h <;>
    (split at h <;> simp_all [mkNoBound, mkInfinite])

/-! ### Scoring lemmas -/

theorem foldl_sub_penalty :
    ∀ (vs : List Violation) (b : Int),
      vs.foldl (fun acc v => acc - severityPenalty v.severity) b =
        b - (vs.map (fun v => severityPenalty v.severity)).sum := by
  intro vs
  induction vs with
  | nil => intro b; simp
  | cons a t ih => intro b; simp [ih, sub_sub]

theorem severityPenalty_nonneg (s : Severity) : 0 ≤ severityPenalty s := by
  cases s <;> decide

theorem penaltySum_nonneg (vs : List Violation) :
    0 ≤ (vs.map (fun v => severityPenalty v.severity)).sum := by
  apply List.sum_nonneg
  intro x hx
  obtain ⟨v, _, rfl⟩ := List.mem_map.mp hx
  exact severityPenalty_nonneg _

/-- Claim C1: `calculate_compliance_score` computes
`max(0, 100 − Σ penalty(violation.severity))` with the penalty table
minor=2, moderate=5, major=10, critical=15 (`severityPenalty`), and the
result always satisfies `0 ≤ score ≤ 100`. -/
theorem C1_score_is_clamped_penalty_sum :
    ∀ vs : List Violation,
      calculate_compliance_score vs = specScoreFormula vs ∧
      0 ≤ calculate_compliance_score vs ∧ calculate_compliance_score vs ≤ 100 := by
  intro vs
  have hsum := penaltySum_nonneg vs
  have hform : calculate_compliance_score vs = specScoreFormula vs := by
    unfold calculate_compliance_score specScoreFormula
    cases hv : vs.isEmpty with
    | true =>
      have hnil : vs = [] := List.isEmpty_iff.mp hv
      subst hnil
      simp
    | false =>
      rw [if_neg (by simp [hv]), foldl_sub_penalty]
  refine ⟨hform, ?_, ?_⟩
  · rw [hform]; exact le_max_left 0 _
  · rw [hform]
    unfold specScoreFormula
    apply max_le <;> omega

/-- Claim C8: scoring and classification depend only on the multiset of
severities — any permutation of the violation list yields the same score
and the same level (and both functions are total by construction). -/
theorem C8_score_permutation_invariant :
    ∀ (vs vs2 : List Violation), vs.Perm vs2 →
      calculate_compliance_score vs = calculate_compliance_score vs2 ∧
      get_compliance_level vs = get_compliance_level vs2 := by
  intro vs vs2 hp
  have hsum := (hp.map (fun v => severityPenalty v.severity)).sum_eq
  have hemp : vs.isEmpty = vs2.isEmpty := by
    have hlen := hp.length_eq
    cases vs <;> cases vs2 <;> simp_all
  have hscore : calculate_compliance_score vs = calculate_compliance_score vs2 := by
    unfold calculate_compliance_score
    rw [hemp, foldl_sub_penalty, foldl_sub_penalty, hsum]
  exact ⟨hscore, by unfold get_compliance_level; rw [hscore]⟩

/-- Witness for C8 at a concrete two-element violation list and its swap. -/
theorem C8_score_permutation_invariant_witness :
    calculate_compliance_score [mkGoto 1 [], mkRule10 2 []] =
      calculate_compliance_score [mkRule10 2 [], mkGoto 1 []] ∧
    get_compliance_level [mkGoto 1 [], mkRule10 2 []] =
      get_compliance_level [mkRule10 2 [], mkGoto 1 []] :=
  C8_score_permutation_invariant _ _ (List.Perm.swap _ _ _)

/-! ### Claims about rule 2 and rule 10 -/

/-- Claim C2: a line of the loaded source receives a rule_2 violation
(rule name Fixed Loop Bounds, severity major) exactly when it matches
`\s*while\s*\(` and lacks all of the substrings `MAX_`, `count`, `size`,
`length`, or it contains `while` together with one of the substrings
`true`, `1`, `!0`; in particular `while (1) { x++; }` yields a rule_2
violation citing an unbounded/infinite loop. -/
theorem C2_rule2_trigger_iff :
    (∀ (pre : List (List Char)) (l : List Char) (post : List (List Char)),
        ((check_rule_2_loop_bounds (pre ++ l :: post)).filter
            (fun v => v.line_number == pre.length + 1) ≠ []) ↔
          ((whileOpenMatch l && !boundedPat l) ||
           (containsSub l (cs "while") && infinitePat l)) = true) ∧
    (∀ (lines : List (List Char)) (v : Violation),
        v ∈ check_rule_2_loop_bounds lines →
        v.rule_id = "rule_2" ∧ v.rule_name = "Fixed Loop Bounds" ∧
          v.severity = Severity.major) ∧
    (∃ v ∈ check_rule_2_loop_bounds [cs "while (1) \x7b x++; \x7d"],
        v.rule_id = "rule_2" ∧
        (v.description = "Loop without clear upper bound detected" ∨
         v.description = "Potential infinite loop detected")) := by
  refine ⟨?_, ?_, ?_⟩
  · intro pre l post
    unfold check_rule_2_loop_bounds
    rw [filter_perLineT (fun i l2 _ => rule2Line i l2)
          (fun v => v.line_number == pre.length + 1)
          (fun i l2 _ v hv => rule2Line_line_number i l2 v hv) (pre.length + 1)
          (fun v hpv => by simpa using hpv) pre 1 l post (by omega)]
    have hall : (rule2Line (pre.length + 1) l).filter
        (fun v => v.line_number == pre.length + 1) = rule2Line (pre.length + 1) l := by
      apply List.filter_eq_self.mpr
      intro v hv
      simp [rule2Line_line_number _ _ _ hv]
    rw [hall]
    cases h1 : whileOpenMatch l && !boundedPat l <;>
      cases h2 : containsSub l (cs "while") && infinitePat l <;>
      simp [rule2Line, h1, h2]
  · intro lines v hv
    obtain ⟨j, l, r, hm⟩ := mem_perLineT_exists _ _ _ _ hv
    exact rule2Line_fields j l v hm
  · decide

/-- Witness for C2 at the one-line source `while (1) { x++; }`. -/
theorem C2_rule2_trigger_iff_witness :
    (check_rule_2_loop_bounds [cs "while (1) \x7b x++; \x7d"]).filter
        (fun v => v.line_number == 1) ≠ [] :=
  (C2_rule2_trigger_iff.1 [] (cs "while (1) \x7b x++; \x7d") []).mpr (by decide)

/-- Claim C9: a line matching `\s*while\s*\(` that lacks the bounded-loop
substrings and contains `true`, `1`, or `!0` receives exactly the two
rule_2 violations `Loop without clear upper bound detected` and
`Potential infinite loop detected` (in that order); in particular
`while (1) { x++; }` produces two rule_2 violations, not one. -/
theorem C9_double_rule2_emission :
    (∀ (pre : List (List Char)) (l : List Char) (post : List (List Char)),
        whileOpenMatch l = true → boundedPat l = false → infinitePat l = true →
        (check_rule_2_loop_bounds (pre ++ l :: post)).filter
            (fun v => v.line_number == pre.length + 1) =
          [mkNoBound (pre.length + 1) l, mkInfinite (pre.length + 1) l]) ∧
    check_rule_2_loop_bounds [cs "while (1) \x7b x++; \x7d"] =
      [mkNoBound 1 (cs "while (1) \x7b x++; \x7d"),
       mkInfinite 1 (cs "while (1) \x7b x++; \x7d")] := by
  constructor
  · intro pre l post hw hb hi
    unfold check_rule_2_loop_bounds
    rw [filter_perLineT (fun i l2 _ => rule2Line i l2)
          (fun v => v.line_number == pre.length + 1)
          (fun i l2 _ v hv => rule2Line_line_number i l2 v hv) (pre.length + 1)
          (fun v hpv => by simpa using hpv) pre 1 l post (by omega)]
    have hall : (rule2Line (pre.length + 1) l).filter
        (fun v => v.line_number == pre.length + 1) = rule2Line (pre.length + 1) l := by
      apply List.filter_eq_self.mpr
      intro v hv
      simp [rule2Line_line_number _ _ _ hv]
    rw [hall]
    have hc := whileOpenMatch_contains_while l hw
    simp [rule2Line, hw, hb, hi, hc]
  · decide

/-- Witness for C9 at the one-line source `while (1) { x++; }`. -/
theorem C9_double_rule2_emission_witness :
    (check_rule_2_loop_bounds [cs "while (1) \x7b x++; \x7d"]).filter
        (fun v => v.line_number == 1) =
      [mkNoBound 1 (cs "while (1) \x7b x++; \x7d"),
       mkInfinite 1 (cs "while (1) \x7b x++; \x7d")] :=
  C9_double_rule2_emission.1 [] (cs "while (1) \x7b x++; \x7d") []
    (by decide) (by decide) (by decide)

/-- Claim C10: rule_10 counts `=` characters regardless of the operator
they belong to — a line with more than one `=` and no `==` substring
receives exactly one rule_10 violation (severity minor), and in
particular `if (a != b && c != d)` triggers rule_10. -/
theorem C10_multiple_assignment_char_count :
    (∀ (pre : List (List Char)) (l : List Char) (post : List (List Char)),
        l.count '=' > 1 → containsSub l (cs "==") = false →
        (check_rule_10_multiple_assignments (pre ++ l :: post)).filter
            (fun v => v.line_number == pre.length + 1) =
          [mkRule10 (pre.length + 1) l]) ∧
    (mkRule10 1 (cs "if (a != b && c != d)")).severity = Severity.minor ∧
    check_rule_10_multiple_assignments [cs "if (a != b && c != d)"] =
      [mkRule10 1 (cs "if (a != b && c != d)")] := by
  refine ⟨?_, rfl, by decide⟩
  intro pre l post hcount hcc
  unfold check_rule_10_multiple_assignments
  rw [filter_perLineT (fun i l2 _ => rule10Line i l2)
        (fun v => v.line_number == pre.length + 1)
        (fun i l2 _ v hv => rule10Line_line_number i l2 v hv) (pre.length + 1)
        (fun v hpv => by simpa using hpv) pre 1 l post (by omega)]
  have hall : (rule10Line (pre.length + 1) l).filter
      (fun v => v.line_number == pre.length + 1) = rule10Line (pre.length + 1) l := by
    apply List.filter_eq_self.mpr
    intro v hv
    simp [rule10Line_line_number _ _ _ hv]
  rw [hall]
  simp [rule10Line, hcount, hcc]

/-- Witness for C10 at the one-line source `if (a != b && c != d)`. -/
theorem C10_multiple_assignment_char_count_witness :
    (check_rule_10_multiple_assignments [cs "if (a != b && c != d)"]).filter
        (fun v => v.line_number == 1) =
      [mkRule10 1 (cs "if (a != b && c != d)")] :=
  C10_multiple_assignment_char_count.1 [] (cs "if (a != b && c != d)") []
    (by decide) (by decide)

/-! ### Claim C3: the recursion heuristic -/

/-- Counterexample to claim C3: in the file
`void foo(void) {` / `}` / `foo();` the call `foo();` occurs after `foo`'s
closing brace, so the name does not reappear within the function's own
body (`callWithinOwnBody` is false) — yet `_check_rule_1_flow_control`
emits the critical `Recursive function call detected` violation for the
signature line, because its scan runs to the end of the file. -/
theorem C3_recursion_not_body_scoped_counterexample :
    searchFuncSig1 (cs "void foo(void) \x7b") = some (cs "foo", cs "void") ∧
    callWithinOwnBody laterCallFile 1 (cs "foo") = false ∧
    (check_rule_1_flow_control laterCallFile).filter
        (fun v => v.description == "Recursive function call detected") =
      [mkRecursion 1 (cs "void foo(void) \x7b")] := by
  refine ⟨by decide, by decide, by decide⟩

/-- Claim C3 as the code forces it to be amended: the recursion violation
is emitted for a detected signature line exactly when the function's name
followed by `(` occurs on some later non-comment line anywhere in the
remainder of the file (not only within the function's own body). -/
theorem C3_recursion_scans_to_end_of_file :
    ∀ (pre : List (List Char)) (l : List Char) (post : List (List Char)),
      ((check_rule_1_flow_control (pre ++ l :: post)).filter
          (fun v => v.line_number == pre.length + 1 &&
            v.description == "Recursive function call detected") ≠ []) ↔
        ∃ name ps, searchFuncSig1 l = some (name, ps) ∧
          recursionScan name post = true := by
  intro pre l post
  unfold check_rule_1_flow_control
  rw [filter_perLineT rule1Line
        (fun v => v.line_number == pre.length + 1 &&
          v.description == "Recursive function call detected")
        rule1Line_line_number (pre.length + 1)
        (fun v hpv => by
          have h1 := (Bool.and_eq_true _ _).mp hpv
          simpa using h1.1)
        pre 1 l post (by omega)]
  unfold rule1Line
  rw [List.filter_append, List.filter_append]
  have hgoto : ∀ b : Bool,
      ((if b then [mkGoto (pre.length + 1) l] else []).filter
        (fun v => v.line_number == pre.length + 1 &&
          v.description == "Recursive function call detected")) = [] := by
    intro b
    cases b <;> simp [mkGoto]
  have hsetjmp : ∀ b : Bool,
      ((if b then [mkSetjmp (pre.length + 1) l] else []).filter
        (fun v => v.line_number == pre.length + 1 &&
          v.description == "Recursive function call detected")) = [] := by
    intro b
    cases b <;> simp [mkSetjmp]
  rw [hgoto, hsetjmp, List.nil_append, List.nil_append]
  cases hs : searchFuncSig1 l with
  | none => simp
  | some r =>
    obtain ⟨name, ps⟩ := r
    cases hr : recursionScan name post with
    | false => simp [hr]
    | true => simp [hr, mkRecursion]

/-- Witness for the amended C3 at the concrete three-line file. -/
theorem C3_recursion_scans_to_end_of_file_witness :
    (check_rule_1_flow_control
        [cs "void foo(void) \x7b", cs "\x7d", cs "foo();"]).filter
        (fun v => v.line_number == 1 &&
          v.description == "Recursive function call detected") ≠ [] :=
  (C3_recursion_scans_to_end_of_file [] (cs "void foo(void) \x7b")
      [cs "\x7d", cs "foo();"]).mpr ⟨cs "foo", cs "void", by decide, by decide⟩

/-! ### Claim C4: the clang-tidy parse adapter -/

/-- Counterexample to claim C4: `"42"` is valid JSON, so `json.loads`
succeeds with the integer 42, and the subsequent `for diagnostic in data`
iteration raises a TypeError that the function's
`except json.JSONDecodeError` clause does not catch — the adapter does
not return an (empty) list for this malformed-structure input. -/
theorem C4_parse_clang_tidy_raises_counterexample :
    json_loads (cs "42") = Except.ok (JVal.num 42) ∧
    parse_clang_tidy_json (cs "42") (cs "test.c") =
      Except.error PyErr.typeError := by
  exact ⟨rfl, rfl⟩

/-- Claim C4 as the code forces it to be amended: whenever `raw_output`
is not valid JSON (`json.loads` raises `JSONDecodeError`), the adapter
returns the empty list without failing; for valid JSON of unexpected
structure it can instead raise (TypeError on `"42"`). -/
theorem C4_invalid_json_yields_empty :
    ∀ (raw fp : List Char) (e : PyErr), json_loads raw = Except.error e →
      parse_clang_tidy_json raw fp = Except.ok [] := by
  intro raw fp e h
  unfold parse_clang_tidy_json
  rw [h]

/-- Witness for the amended C4 at a non-JSON input. -/
theorem C4_invalid_json_yields_empty_witness :
    parse_clang_tidy_json (cs "not json") (cs "f.c") = Except.ok [] :=
  C4_invalid_json_yields_empty (cs "not json") (cs "f.c")
    PyErr.jsonDecodeError rfl

/-! ### Claim C5: availability probe and tool skipping -/

theorem pair_mem_toolSeg {b : Bool} {u t : ToolName}
    {x rs : List StaticAnalysisResult}
    (h : (t, rs) ∈ (if b then [(u, x)]
        else ([] : List (ToolName × List StaticAnalysisResult)))) :
    t = u ∧ b = true := by
  cases b with
  | false => simp at h
  | true => simp at h; exact ⟨h.1, rfl⟩

/-- Claim C5: a probe outcome of a missing binary or a version-check
timeout yields `false` (no exception: the probe is a total Boolean
function of the launch outcome); `run_all_tools` consults the
invoke-and-parse work only of tools whose probe succeeded, so an
unavailable tool contributes no entry and the other adapters' results are
unchanged whatever the skipped tool would have produced. -/
theorem C5_unavailable_tool_skipped :
    check_tool_available LaunchOutcome.fileNotFound = false ∧
    check_tool_available LaunchOutcome.timeoutExpired = false ∧
    ∀ (tools : ToolName → Bool) (rt rt2 : ToolName → List StaticAnalysisResult)
      (t : ToolName), tools t = false → (∀ u, u ≠ t → rt u = rt2 u) →
      run_all_tools tools rt = run_all_tools tools rt2 ∧
      ∀ rs, (t, rs) ∉ run_all_tools tools rt := by
  refine ⟨rfl, rfl, ?_⟩
  intro tools rt rt2 t h1 h2
  have he : ∀ u, (if tools u then [(u, rt u)]
      else ([] : List (ToolName × List StaticAnalysisResult))) =
      (if tools u then [(u, rt2 u)] else []) := by
    intro u
    cases hu : tools u with
    | false => rfl
    | true =>
      have hut : u ≠ t := by
        rintro rfl
        rw [h1] at hu
        exact Bool.false_ne_true hu
      rw [h2 u hut]
  constructor
  · unfold run_all_tools
    rw [he .cppcheck, he .clang_tidy, he .splint, he .flawfinder]
  · intro rs hmem
    unfold run_all_tools at hmem
    have habs : ∀ (u : ToolName) (x : List StaticAnalysisResult),
        (t, rs) ∈ (if tools u then [(u, x)]
          else ([] : List (ToolName × List StaticAnalysisResult))) → False := by
      intro u x hm
      obtain ⟨htu, hb⟩ := pair_mem_toolSeg hm
      rw [← htu, h1] at hb
      exact Bool.false_ne_true hb
    rcases List.mem_append.mp hmem with h | h
    · rcases List.mem_append.mp h with h | h
      · rcases List.mem_append.mp h with h | h
        · exact habs _ _ h
        · exact habs _ _ h
      · exact habs _ _ h
    · exact habs _ _ h

/-- Witness for C5: cppcheck unavailable, the other three tools
available; the aggregate is independent of what cppcheck's run would
return and contains no cppcheck entry. -/
theorem C5_unavailable_tool_skipped_witness :
    run_all_tools
        (fun u => match u with | ToolName.cppcheck => false | _ => true)
        (fun _ => []) =
      run_all_tools
        (fun u => match u with | ToolName.cppcheck => false | _ => true)
        (fun u => match u with
          | ToolName.cppcheck => [⟨cs "cppcheck", cs "f.c", JVal.num 1,
              JVal.null, JVal.null, JVal.null, cs "style_general", 90⟩]
          | _ => []) ∧
    (ToolName.cppcheck, ([] : List StaticAnalysisResult)) ∉
      run_all_tools
        (fun u => match u with | ToolName.cppcheck => false | _ => true)
        (fun _ => []) := by
  have h := C5_unavailable_tool_skipped.2.2
    (fun u => match u with | ToolName.cppcheck => false | _ => true)
    (fun _ => [])
    (fun u => match u with
      | ToolName.cppcheck => [⟨cs "cppcheck", cs "f.c", JVal.num 1,
          JVal.null, JVal.null, JVal.null, cs "style_general", 90⟩]
      | _ => [])
    ToolName.cppcheck rfl
    (by intro u hu; cases u <;> first | rfl | exact absurd rfl hu)
  exact ⟨h.1, h.2 []⟩

/-! ### Claims C6 and C7: totality of the intrinsic engine -/

theorem pyIdx_ok (l : List (List Char)) (k : Int) (h0 : 0 ≤ k)
    (h1 : k < l.length) : ∃ a, pyIdx l k = .ok a := by
  have hneg : ¬ k < 0 := not_lt.mpr h0
  have hnorm : pyNorm l.length k = k := if_neg hneg
  have hlt : k.toNat < l.length := by omega
  refine ⟨l.get ⟨k.toNat, hlt⟩, ?_⟩
  unfold pyIdx
  rw [hnorm, if_neg hneg, List.get?_eq_get hlt]

theorem commentScan_ok (lines : List (List Char)) :
    ∀ js : List Nat, (∀ j ∈ js, j < lines.length) →
      ∃ b, commentScan lines js = .ok b := by
  intro js
  induction js with
  | nil => intro _; exact ⟨false, rfl⟩
  | cons j js2 ih =>
    intro h
    have hj := h j (List.mem_cons_self j js2)
    obtain ⟨a, ha⟩ := pyIdx_ok lines (j : Int) (by omega) (by exact_mod_cast hj)
    obtain ⟨b2, hb2⟩ := ih (fun x hx => h x (List.mem_cons_of_mem _ hx))
    cases hb : hasPfx (stripChars a) (cs "//") || hasPfx (stripChars a) (cs "/*") with
    | true => exact ⟨true, by simp only [commentScan, ha]; rw [if_pos hb]⟩
    | false =>
      exact ⟨b2, by simp only [commentScan, ha]; rw [if_neg (by simp [hb])]; exact hb2⟩

theorem errScan_ok (lines : List (List Char)) :
    ∀ js : List Nat, (∀ j ∈ js, j < lines.length) →
      ∃ b, errScan lines js = .ok b := by
  intro js
  induction js with
  | nil => intro _; exact ⟨false, rfl⟩
  | cons j js2 ih =>
    intro h
    have hj := h j (List.mem_cons_self j js2)
    obtain ⟨a, ha⟩ := pyIdx_ok lines (j : Int) (by omega) (by exact_mod_cast hj)
    obtain ⟨b2, hb2⟩ := ih (fun x hx => h x (List.mem_cons_of_mem _ hx))
    cases hb : containsSub (a.map Char.toLower) (cs "error") ||
        containsSub a (cs "return") with
    | true => exact ⟨true, by simp only [errScan, ha]; rw [if_pos hb]⟩
    | false =>
      exact ⟨b2, by simp only [errScan, ha]; rw [if_neg (by simp [hb])]; exact hb2⟩

theorem commentLine_ok (lines : List (List Char)) (i : Nat) (l : List Char)
    (hi : i ≤ lines.length) : ∃ vs, commentLine lines i l = .ok vs := by
  unfold commentLine
  split
  · have hjs : ∀ j ∈ List.range' (i - 3) (i - (i - 3)), j < lines.length := by
      intro j hj
      have := List.mem_range'_1.mp hj
      omega
    obtain ⟨b, hb⟩ := commentScan_ok lines _ hjs
    rw [hb]
    exact ⟨_, rfl⟩
  · exact ⟨[], rfl⟩

theorem errLine_ok (lines : List (List Char)) (i : Nat) (l : List Char)
    (_hi : i ≤ lines.length) : ∃ vs, errLine lines i l = .ok vs := by
  unfold errLine
  split
  · have hjs : ∀ j ∈ List.range' i (min (i + 20) lines.length - i),
        j < lines.length := by
      intro j hj
      have := List.mem_range'_1.mp hj
      omega
    obtain ⟨b, hb⟩ := errScan_ok lines _ hjs
    rw [hb]
    exact ⟨_, rfl⟩
  · exact ⟨[], rfl⟩

theorem perLineE_ok (f : Nat → List Char → Except PyErr (List Violation)) (N : Nat)
    (hf : ∀ i l, 1 ≤ i → i ≤ N → ∃ vs, f i l = .ok vs) :
    ∀ (t : List (List Char)) (i : Nat), 1 ≤ i → i + t.length ≤ N + 1 →
      ∃ vs, perLineE f i t = .ok vs := by
  intro t
  induction t with
  | nil => intro i _ _; exact ⟨[], rfl⟩
  | cons l t2 ih =>
    intro i h1 h2
    have hi : i ≤ N := by simp only [List.length_cons] at h2; omega
    obtain ⟨vs, hvs⟩ := hf i l h1 hi
    obtain ⟨vs2, hvs2⟩ := ih (i + 1) (by omega)
      (by simp only [List.length_cons] at h2; omega)
    refine ⟨vs ++ vs2, ?_⟩
    simp only [perLineE]
    rw [hvs, hvs2]

theorem rule7Go_ok (lines : List (List Char)) :
    ∀ (t : List (List Char)) (inFn : Bool) (fs rc i : Nat),
      1 ≤ i → i + t.length ≤ lines.length + 1 →
      (inFn = true → 1 ≤ fs ∧ fs ≤ lines.length) →
      ∃ vs, rule7Go lines inFn fs rc i t = .ok vs := by
  intro t
  induction t with
  | nil => intro inFn fs rc i _ _ _; exact ⟨[], rfl⟩
  | cons l t2 ih =>
    intro inFn fs rc i h1 h2 h3
    have hlen : i ≤ lines.length := by
      simp only [List.length_cons] at h2; omega
    have hlen2 : (i + 1) + t2.length ≤ lines.length + 1 := by
      simp only [List.length_cons] at h2; omega
    simp only [rule7Go]
    split
    · exact ih true i 0 (i + 1) (by omega) hlen2 (fun _ => ⟨h1, hlen⟩)
    · split
      · rename_i hc
        have hin : inFn = true := ((Bool.and_eq_true _ _).mp hc).2
        obtain ⟨hfs1, hfs2⟩ := h3 hin
        split
        · obtain ⟨sig, hsig⟩ := pyIdx_ok lines ((fs : Int) - 1) (by omega) (by omega)
          rw [hsig]
          obtain ⟨vs, hvs⟩ := ih false fs _ (i + 1) (by omega) hlen2
            (fun hcon => absurd hcon Bool.false_ne_true)
          rw [hvs]
          exact ⟨_, rfl⟩
        · exact ih false fs _ (i + 1) (by omega) hlen2
            (fun hcon => absurd hcon Bool.false_ne_true)
      · exact ih inFn fs _ (i + 1) (by omega) hlen2 h3

theorem fnLenGo_ok (lines : List (List Char)) :
    ∀ (t : List (List Char)) (inFn : Bool) (fs lc i : Nat),
      1 ≤ i → i + t.length ≤ lines.length + 1 →
      (inFn = true → 1 ≤ fs ∧ fs ≤ lines.length) →
      ∃ vs, fnLenGo lines inFn fs lc i t = .ok vs := by
  intro t
  induction t with
  | nil => intro inFn fs lc i _ _ _; exact ⟨[], rfl⟩
  | cons l t2 ih =>
    intro inFn fs lc i h1 h2 h3
    have hlen : i ≤ lines.length := by
      simp only [List.length_cons] at h2; omega
    have hlen2 : (i + 1) + t2.length ≤ lines.length + 1 := by
      simp only [List.length_cons] at h2; omega
    simp only [fnLenGo]
    split
    · exact ih true i 0 (i + 1) (by omega) hlen2 (fun _ => ⟨h1, hlen⟩)
    · split
      · rename_i hc
        have hin : inFn = true := ((Bool.and_eq_true _ _).mp hc).2
        obtain ⟨hfs1, hfs2⟩ := h3 hin
        split
        · obtain ⟨sig, hsig⟩ := pyIdx_ok lines ((fs : Int) - 1) (by omega) (by omega)
          rw [hsig]
          obtain ⟨vs, hvs⟩ := ih false fs _ (i + 1) (by omega) hlen2
            (fun hcon => absurd hcon Bool.false_ne_true)
          rw [hvs]
          exact ⟨_, rfl⟩
        · exact ih false fs _ (i + 1) (by omega) hlen2
            (fun hcon => absurd hcon Bool.false_ne_true)
      · exact ih inFn fs _ (i + 1) (by omega) hlen2 h3

/-- Claim C6: every intrinsic rule checker is total over arbitrary text —
for every input string, `check_all_rules` returns an (ordered) violation
list and never raises: the only fallible operations, the
`code_lines[...]` subscriptions of rules 7, function-length, comment
coverage and error handling, are always in range. -/
theorem C6_check_all_rules_total :
    ∀ code : List Char, ∃ vs, check_all_rules (load_code code) = Except.ok vs := by
  intro code
  generalize load_code code = lines
  obtain ⟨v7, h7⟩ := rule7Go_ok lines lines false 0 0 1 (by omega) (by omega)
    (fun hcon => absurd hcon Bool.false_ne_true)
  obtain ⟨vfl, hfl⟩ := fnLenGo_ok lines lines false 0 0 1 (by omega) (by omega)
    (fun hcon => absurd hcon Bool.false_ne_true)
  obtain ⟨vcc, hcc⟩ := perLineE_ok (commentLine lines) lines.length
    (fun i l _ h2 => commentLine_ok lines i l h2) lines 1 (by omega) (by omega)
  obtain ⟨veh, heh⟩ := perLineE_ok (errLine lines) lines.length
    (fun i l _ h2 => errLine_ok lines i l h2) lines 1 (by omega) (by omega)
  unfold check_all_rules check_rule_7_single_return check_function_length
    check_comment_coverage check_error_handling
  simp only [h7, hfl, hcc, heh]
  exact ⟨_, rfl⟩

/-- Claim C7: the empty source string yields an empty violation list, a
compliance score of exactly 100, and level `fully_compliant`. -/
theorem C7_empty_source :
    check_all_rules (load_code (cs "")) = Except.ok [] ∧
    calculate_compliance_score [] = 100 ∧
    get_compliance_level [] = "fully_compliant" :=
  ⟨rfl, rfl, rfl⟩

end NasaC
